import Mathlib

/-!
Verification of the sanitizing aggregation pipeline of `kado-ai` (`ai/ai.go`).

The Go code is shallowly embedded:

* Go `regexp` patterns (compiled with `regexp.MustCompile`, hence Perl-style
  leftmost-first matching) become values of an inductive `RE`, and
  `ReplaceAllString` becomes `replaceAllString` built on a CPS backtracking
  matcher `mre`.  Every repetition operator appearing in the source patterns is
  either a bounded repetition (expanded to sequences of optionals) or a
  repetition of a single character class, so the matcher needs only a greedy
  character-class star `starCls` and is structurally recursive.
* `sanitizeContent` applies the ten sensitive patterns in source order and then
  the URL pass with its `${1}[REDACTED]${3}` template.
* `scanDirectory`, `loadConfig`, `NewAIClient`, `getRecommendations` and
  `RunAI` are embedded over an explicit filesystem / environment model, with
  the network as an oracle and the interactive confirmation answer as data.
* The JSON decoding step of `RunAI` is embedded with a real JSON parser
  (`jsonParse`) standing for `encoding/json.Unmarshal` into
  `map[string]interface\x7b\x7d`; the unchecked Go type assertion on
  `content[0]` is modelled by a distinguished `panicked` outcome.
-/

/-! ### Character classes (Go RE2, ASCII semantics as used by the patterns) -/

/-- Go `\s`: `[\t\n\f\r ]`. -/
def isSpaceCh (c : Char) : Bool :=
  c == ' ' || c == '\t' || c == '\n' || c == '\r' || c == '\x0c'

/-- Go `\w`: `[0-9A-Za-z_]`. -/
def isWordCh (c : Char) : Bool :=
  ('0'.toNat ≤ c.toNat && c.toNat ≤ '9'.toNat) ||
  ('a'.toNat ≤ c.toNat && c.toNat ≤ 'z'.toNat) ||
  ('A'.toNat ≤ c.toNat && c.toNat ≤ 'Z'.toNat) || c == '_'

def isDigitCh (c : Char) : Bool := '0'.toNat ≤ c.toNat && c.toNat ≤ '9'.toNat

def isHexCh (c : Char) : Bool :=
  isDigitCh c || ('a'.toNat ≤ c.toNat && c.toNat ≤ 'f'.toNat) ||
  ('A'.toNat ≤ c.toNat && c.toNat ≤ 'F'.toNat)

def isAlphaNumCh (c : Char) : Bool :=
  isDigitCh c || ('a'.toNat ≤ c.toNat && c.toNat ≤ 'z'.toNat) ||
  ('A'.toNat ≤ c.toNat && c.toNat ≤ 'Z'.toNat)

def squoteCh : Char := Char.ofNat 39
def lbraceCh : Char := Char.ofNat 123
def rbraceCh : Char := Char.ofNat 125

/-- `[^\s'",]` of the generic secret patterns. -/
def noSpaceQuoteComma (c : Char) : Bool :=
  !(isSpaceCh c || c == squoteCh || c == '"' || c == ',')

/-- `[^\s'",}]` of the nested-value patterns. -/
def noSpaceQuoteCommaBrace (c : Char) : Bool :=
  !(isSpaceCh c || c == squoteCh || c == '"' || c == ',' || c == rbraceCh)

/-- `[^'",]` of the private-key pattern. -/
def noQuoteComma (c : Char) : Bool := !(c == squoteCh || c == '"' || c == ',')

/-- `[^"']` of the quoted-secret pattern. -/
def noAnyQuote (c : Char) : Bool := !(c == '"' || c == squoteCh)

/-- `['"]` / `["']`. -/
def isQuoteCh (c : Char) : Bool := c == squoteCh || c == '"'

/-- `[\w.-]`, the URL host class. -/
def isHostCh (c : Char) : Bool := isWordCh c || c == '.' || c == '-'

/-- `\S`. -/
def notSpaceCh (c : Char) : Bool := !isSpaceCh c

def betweenCh (c lo hi : Char) : Bool := lo.toNat ≤ c.toNat && c.toNat ≤ hi.toNat

/-! ### Executable string helpers over `List Char`

The Go `strings` functions used by the source are embedded directly (the
corresponding Lean core functions use byte-position auxiliaries that do not
reduce in the kernel). -/

/-- `unicode.IsSpace` restricted to ASCII, as used by `strings.TrimSpace`. -/
def isGoSpace (c : Char) : Bool :=
  c == ' ' || c == '\t' || c == '\n' || c == '\x0b' || c == '\x0c' || c == '\r'

def dropWhileList (p : Char → Bool) : List Char → List Char
  | [] => []
  | c :: rest => if p c then dropWhileList p rest else c :: rest

/-- `strings.TrimSpace`. -/
def trimChars (s : List Char) : List Char :=
  (dropWhileList isGoSpace (dropWhileList isGoSpace s).reverse).reverse

/-- Split on newlines, as `bufio.Scanner` with `ScanLines` does (the final
`\r`-stripping is subsumed by the later `TrimSpace`). -/
def splitLines : List Char → List (List Char)
  | [] => [[]]
  | c :: rest =>
    if c == '\n' then [] :: splitLines rest
    else
      match splitLines rest with
      | l :: ls => (c :: l) :: ls
      | [] => [[c]]

/-- `strings.SplitN(line, "=", 2)`: split at the first `=`, if any. -/
def splitFirstEq : List Char → Option (List Char × List Char)
  | [] => none
  | c :: rest =>
    if c == '=' then some ([], rest)
    else
      match splitFirstEq rest with
      | some (a, b) => some (c :: a, b)
      | none => none

/-- `listStarts s t`: `t` is a prefix of `s` (`strings.HasPrefix`). -/
def listStarts : List Char → List Char → Bool
  | _, [] => true
  | [], _ :: _ => false
  | c :: rest, d :: ds => c == d && listStarts rest ds

/-- `strings.HasSuffix`. -/
def listEnds (s t : List Char) : Bool := listStarts s.reverse t.reverse

/-- `strings.ToLower` (ASCII). -/
def strToLower (s : String) : String := String.mk (s.data.map Char.toLower)

/-- `hasSub hay needle`: `needle` occurs as a contiguous substring of `hay`. -/
def hasSub : List Char → List Char → Bool
  | hay, needle =>
    if listStarts hay needle then true
    else
      match hay with
      | [] => false
      | _ :: rest => hasSub rest needle

/-! ### Regular expressions

`RE` covers exactly the constructs used by the source patterns: character
classes, concatenation, ordered alternation, greedy star over a character
class, and the word boundary `\b`.  Literals, optionals, plus, and bounded
repetitions are derived forms. -/

inductive RE where
  | eps : RE
  | cls (p : Char → Bool) : RE
  | seq (a b : RE) : RE
  | alt (a b : RE) : RE
  | starCls (p : Char → Bool) : RE
  | wordB : RE

/-- First-success choice on `Option`, the backtracking combinator. -/
def altOr {A : Type} : Option A → Option A → Option A
  | some r, _ => some r
  | none, y => y

def isWordOpt : Option Char → Bool
  | some c => isWordCh c
  | none => false

/-- Greedy matching of `p*` in CPS: consume as many `p`-characters as
possible, backtracking to shorter runs if the continuation fails.  `prev`
tracks the previous character for word boundaries. -/
def starGo {A : Type} (p : Char → Bool) (k : Option Char → List Char → Option A) :
    Option Char → List Char → Option A
  | prev, [] => k prev []
  | prev, c :: rest =>
    cond (p c)
      (altOr (starGo p k (some c) rest) (k prev (c :: rest)))
      (k prev (c :: rest))

/-- The leftmost-first (Perl-style, as in Go's `regexp.Compile`) backtracking
matcher.  `mre re prev s k` tries to match `re` against a prefix of `s` and
calls the continuation `k` on the previous character and the rest; the first
success in backtracking order wins, as in RE2's leftmost-first semantics. -/
def mre {A : Type} : RE → Option Char → List Char → (Option Char → List Char → Option A) → Option A
  | .eps, prev, s, k => k prev s
  | .cls p, _, s, k =>
    match s with
    | [] => none
    | c :: rest => cond (p c) (k (some c) rest) none
  | .seq a b, prev, s, k => mre a prev s (fun p2 t => mre b p2 t k)
  | .alt a b, prev, s, k => altOr (mre a prev s k) (mre b prev s k)
  | .starCls p, prev, s, k => starGo p k prev s
  | .wordB, prev, s, k => cond (isWordOpt prev != isWordOpt s.head?) (k prev s) none

/-- Greedy `r?`. -/
def optRE (a : RE) : RE := .alt a .eps

/-- `p+` over a character class. -/
def plusCls (p : Char → Bool) : RE := .seq (.cls p) (.starCls p)

/-- A case-sensitive literal. -/
def litRE (s : String) : RE :=
  s.data.foldr (fun c r => .seq (.cls (fun x => x == c)) r) .eps

/-- A literal under Go's `(?i)` flag (ASCII case folding suffices for the
letters appearing in the source patterns). -/
def litCI (s : String) : RE :=
  s.data.foldr (fun c r => .seq (.cls (fun x => x.toLower == c.toLower)) r) .eps

/-- `r{n}`. -/
def repExact (a : RE) : Nat → RE
  | 0 => .eps
  | n + 1 => .seq a (repExact a n)

/-- Greedy `r{0,n}`. -/
def repMax (a : RE) : Nat → RE
  | 0 => .eps
  | n + 1 => optRE (.seq a (repMax a n))

/-- Greedy `r{m,n}`. -/
def repRange (a : RE) (m n : Nat) : RE := .seq (repExact a m) (repMax a (n - m))

/-! ### Finding and replacing matches (Go `Regexp.ReplaceAllString`) -/

/-- The match attempt at the current position: the rest of the input after
the leftmost-first match starting here, if any. -/
def matchAt (re : RE) (prev : Option Char) (s : List Char) : Option (List Char) :=
  mre re prev s (fun _ rest => some rest)

/-- The `(before, matched, after)` triple for a match at the start of `s`
whose remaining input is `rest`. -/
def found (s rest : List Char) : List Char × List Char × List Char :=
  ([], s.take (s.length - rest.length), rest)

/-- Leftmost match search: returns `(before, matched, after)` for the
leftmost-first match, scanning start positions left to right. -/
def findFrom (re : RE) (prev : Option Char) : List Char → Option (List Char × List Char × List Char)
  | [] =>
    match matchAt re prev [] with
    | some rest => some (found [] rest)
    | none => none
  | c :: tail =>
    match matchAt re prev (c :: tail) with
    | some rest => some (found (c :: tail) rest)
    | none =>
      match findFrom re (some c) tail with
      | some (b, m, a) => some (c :: b, m, a)
      | none => none

/-- Replace all successive non-overlapping matches of `re` by the literal
`repl`, as `ReplaceAllString` does for a template without references.  An
empty match advances by one character.  The fuel is initialised to
`length + 1`, which bounds the number of matches. -/
def replaceAllAux (re : RE) (repl : List Char) : Nat → Option Char → List Char → List Char
  | 0, _, s => s
  | fuel + 1, prev, s =>
    match findFrom re prev s with
    | none => s
    | some (b, m, a) =>
      match m with
      | [] =>
        match a with
        | [] => b ++ repl
        | c :: rest => b ++ repl ++ c :: replaceAllAux re repl fuel (some c) rest
      | _ => b ++ repl ++ replaceAllAux re repl fuel m.getLast? a

def replaceAllString (re : RE) (repl : List Char) (s : List Char) : List Char :=
  replaceAllAux re repl (s.length + 1) none s

/-! ### The ten sensitive patterns of `sanitizeContent`, in source order -/

/-- `(aws_access_key|aws_secret_key|password|token|secret|api_key)` under `(?i)`. -/
def keyAlt : RE :=
  .alt (litCI "aws_access_key") (.alt (litCI "aws_secret_key") (.alt (litCI "password")
    (.alt (litCI "token") (.alt (litCI "secret") (litCI "api_key")))))

/-- `\s*[=:]\s*`. -/
def sepEq : RE :=
  .seq (.starCls isSpaceCh) (.seq (.cls (fun c => c == '=' || c == ':')) (.starCls isSpaceCh))

/-- `['"]?`. -/
def quoteOpt : RE := optRE (.cls isQuoteCh)

/-- Pattern 1: `(?i)(aws_access_key|aws_secret_key|password|token|secret|api_key)(\s*[=:]\s*)['"]?[^\s'",]+['"]?`. -/
def reSecretKV : RE :=
  .seq keyAlt (.seq sepEq (.seq quoteOpt (.seq (plusCls noSpaceQuoteComma) quoteOpt)))

/-- Pattern 2: `(?i)(private_key)(\s*[=:]\s*)['"]?-----BEGIN[^'",]*-----END[^'",]*['"]?`. -/
def rePrivateKey : RE :=
  .seq (litCI "private_key") (.seq sepEq (.seq quoteOpt (.seq (litCI "-----BEGIN")
    (.seq (.starCls noQuoteComma) (.seq (litCI "-----END")
      (.seq (.starCls noQuoteComma) quoteOpt))))))

/-- Pattern 3: `(?i)(connection_string)(\s*[=:]\s*)['"]?[^\s'",]+['"]?`. -/
def reConnStr : RE :=
  .seq (litCI "connection_string")
    (.seq sepEq (.seq quoteOpt (.seq (plusCls noSpaceQuoteComma) quoteOpt)))

/-- Pattern 4: `(?i)(bearer\s+)['"]?[^\s'",]+['"]?`. -/
def reBearer : RE :=
  .seq (litCI "bearer")
    (.seq (plusCls isSpaceCh) (.seq quoteOpt (.seq (plusCls noSpaceQuoteComma) quoteOpt)))

/-- `"?`. -/
def dqOpt : RE := optRE (.cls (fun c => c == '"'))

/-- `[:=]?`. -/
def colonEqOpt : RE := optRE (.cls (fun c => c == ':' || c == '='))

/-- `\{?`. -/
def lbraceOpt : RE := optRE (.cls (fun c => c == lbraceCh))

/-- The common prefix shape `"?\w* KEY "?\s*[:=]?\s*\{?\s*"?value"?\s*[:=]?\s*`
followed by `['"]?[^\s'",}]+['"]?`, shared by patterns 5, 6 and 8. -/
def valueFieldRE (key : RE) : RE :=
  .seq dqOpt (.seq (.starCls isWordCh) (.seq key (.seq dqOpt (.seq (.starCls isSpaceCh)
    (.seq colonEqOpt (.seq (.starCls isSpaceCh) (.seq lbraceOpt (.seq (.starCls isSpaceCh)
      (.seq dqOpt (.seq (litCI "value") (.seq dqOpt (.seq (.starCls isSpaceCh)
        (.seq colonEqOpt (.seq (.starCls isSpaceCh)
          (.seq quoteOpt (.seq (plusCls noSpaceQuoteCommaBrace) quoteOpt))))))))))))))))

/-- Pattern 5: `(?i)("?\w*password"?\s*[:=]?\s*\{?\s*"?value"?\s*[:=]?\s*)['"]?[^\s'",}]+['"]?`. -/
def rePasswordValue : RE := valueFieldRE (litCI "password")

/-- Pattern 6: the same shape with `user` in place of `password`. -/
def reUserValue : RE := valueFieldRE (litCI "user")

/-- `(password|secret|key|token)` under `(?i)`. -/
def kw4 : RE :=
  .alt (litCI "password") (.alt (litCI "secret") (.alt (litCI "key") (litCI "token")))

/-- Pattern 7: `(?i)("?\w*(password|secret|key|token)"?\s*[:=]?\s*["'])[^"']+["']`. -/
def reQuotedSecret : RE :=
  .seq dqOpt (.seq (.starCls isWordCh) (.seq kw4 (.seq dqOpt (.seq (.starCls isSpaceCh)
    (.seq colonEqOpt (.seq (.starCls isSpaceCh)
      (.seq (.cls isQuoteCh) (.seq (plusCls noAnyQuote) (.cls isQuoteCh)))))))))

/-- Pattern 8: `(?i)("?\w*(password|secret|key|token)"?\s*[:=]?\s*\{?\s*"?value"?\s*[:=]?\s*)['"]?[^\s'",}]+['"]?`. -/
def reSecretValueField : RE := valueFieldRE kw4

/-- `(?:25[0-5]|2[0-4][0-9]|[01]?[0-9][0-9]?)`. -/
def octet : RE :=
  .alt (.seq (litRE "25") (.cls (fun c => betweenCh c '0' '5')))
    (.alt (.seq (litRE "2") (.seq (.cls (fun c => betweenCh c '0' '4')) (.cls isDigitCh)))
      (.seq (optRE (.cls (fun c => c == '0' || c == '1')))
        (.seq (.cls isDigitCh) (optRE (.cls isDigitCh)))))

/-- Pattern 9: the IPv4 literal pattern `\b(?:octet\.){3}octet\b`. -/
def reIPv4 : RE :=
  .seq .wordB (.seq (repExact (.seq octet (.cls (fun c => c == '.'))) 3) (.seq octet .wordB))

def colonCls : RE := .cls (fun c => c == ':')

/-- `[0-9a-fA-F]{1,4}`. -/
def h14 : RE := repRange (.cls isHexCh) 1 4

/-- `[0-9a-fA-F]{1,4}:`. -/
def hcGroup : RE := .seq h14 colonCls

/-- `:[0-9a-fA-F]{1,4}`. -/
def ch14 : RE := .seq colonCls h14

/-- The dotted-quad tail allowed inside the IPv6 pattern:
`(?:25[0-5]|(?:2[0-4]|1{0,1}[0-9]){0,1}[0-9])` repeated with dots. -/
def octet6 : RE :=
  .alt (.seq (litRE "25") (.cls (fun c => betweenCh c '0' '5')))
    (.seq (optRE (.alt (.seq (litRE "2") (.cls (fun c => betweenCh c '0' '4')))
      (.seq (optRE (litRE "1")) (.cls isDigitCh)))) (.cls isDigitCh))

/-- `(?:octet6\.){3,3}octet6`. -/
def ipv4in6 : RE :=
  .seq (repExact (.seq octet6 (.cls (fun c => c == '.'))) 3) octet6

/-- The twelve ordered alternatives of the IPv6 pattern body. -/
def ipv6Body : RE :=
  .alt (.seq (repExact hcGroup 7) h14)
  (.alt (.seq (repRange hcGroup 1 7) colonCls)
  (.alt (.seq (repRange hcGroup 1 6) (.seq colonCls h14))
  (.alt (.seq (repRange hcGroup 1 5) (repRange ch14 1 2))
  (.alt (.seq (repRange hcGroup 1 4) (repRange ch14 1 3))
  (.alt (.seq (repRange hcGroup 1 3) (repRange ch14 1 4))
  (.alt (.seq (repRange hcGroup 1 2) (repRange ch14 1 5))
  (.alt (.seq h14 (.seq colonCls (repRange ch14 1 6)))
  (.alt (.seq colonCls (.alt (repRange ch14 1 7) colonCls))
  (.alt (.seq (litRE "fe80:") (.seq (repRange (.seq colonCls (repRange (.cls isHexCh) 0 4)) 0 4)
          (.seq (.cls (fun c => c == '%')) (plusCls isAlphaNumCh))))
  (.alt (.seq colonCls (.seq colonCls
          (.seq (repRange (.seq (litRE "ffff")
            (.seq (repRange (.seq colonCls (repRange (.cls (fun c => c == '0')) 1 4)) 0 1)
              colonCls)) 0 1) ipv4in6)))
        (.seq (repRange hcGroup 1 4) (.seq colonCls ipv4in6))))))))))))

/-- Pattern 10: the IPv6 literal pattern `\b(?:...)\b`. -/
def reIPv6 : RE := .seq .wordB (.seq ipv6Body .wordB)

/-! ### The URL pass `(https?://)([\w.-]+)(\/?\S*)` with template `${1}[REDACTED]${3}` -/

/-- Group 1, `(https?://)`. -/
def urlG1 : RE := .seq (litRE "http") (.seq (optRE (.cls (fun c => c == 's'))) (litRE "://"))

/-- Group 2, `([\w.-]+)`. -/
def urlG2 : RE := plusCls isHostCh

/-- Group 3, `(\/?\S*)`. -/
def urlG3 : RE := .seq (optRE (.cls (fun c => c == '/'))) (.starCls notSpaceCh)

/-- Match `urlG1 urlG2 urlG3` at the current position, handing the rest of the
input after each group to `k` so that the group texts can be recovered. -/
def urlMatchAt {A : Type} (prev : Option Char) (s : List Char)
    (k : List Char → List Char → List Char → Option A) : Option A :=
  mre urlG1 prev s (fun p1 r1 =>
    mre urlG2 p1 r1 (fun p2 r2 =>
      mre urlG3 p2 r2 (fun _ r3 => k r1 r2 r3)))

/-- The `(before, matched, group1, group3, after)` tuple for a URL match at
the start of `s` with group boundaries `r1`, `r2`, `r3`. -/
def urlFound (s r1 r2 r3 : List Char) :
    List Char × List Char × List Char × List Char × List Char :=
  ([], s.take (s.length - r3.length), s.take (s.length - r1.length),
    r2.take (r2.length - r3.length), r3)

/-- Leftmost URL match: `(before, matched, group1, group3, after)`. -/
def urlFindFrom (prev : Option Char) :
    List Char → Option (List Char × List Char × List Char × List Char × List Char)
  | [] =>
    match urlMatchAt prev [] (fun r1 r2 r3 => some (r1, r2, r3)) with
    | some (r1, r2, r3) => some (urlFound [] r1 r2 r3)
    | none => none
  | c :: tail =>
    match urlMatchAt prev (c :: tail) (fun r1 r2 r3 => some (r1, r2, r3)) with
    | some (r1, r2, r3) => some (urlFound (c :: tail) r1 r2 r3)
    | none =>
      match urlFindFrom (some c) tail with
      | some (b, m, g1, g3, a) => some (c :: b, m, g1, g3, a)
      | none => none

def redactedChars : List Char := "[REDACTED]".data

/-- `ReplaceAllString` for the URL pattern with template `${1}[REDACTED]${3}`. -/
def urlReplaceAllAux : Nat → Option Char → List Char → List Char
  | 0, _, s => s
  | fuel + 1, prev, s =>
    match urlFindFrom prev s with
    | none => s
    | some (b, m, g1, g3, a) =>
      match m with
      | [] =>
        match a with
        | [] => b ++ g1 ++ redactedChars ++ g3
        | c :: rest => b ++ g1 ++ redactedChars ++ g3 ++ c :: urlReplaceAllAux fuel (some c) rest
      | _ => b ++ g1 ++ redactedChars ++ g3 ++ urlReplaceAllAux fuel m.getLast? a

def urlReplaceAllString (s : List Char) : List Char :=
  urlReplaceAllAux (s.length + 1) none s

/-! ### `sanitizeContent` -/

/-- The body of `sanitizeContent`: the ten sensitive patterns applied in
source order, each replacing matches by `[REDACTED]`, followed by the URL
host-redaction pass. -/
def sanitizeList (s : List Char) : List Char :=
  let s1 := replaceAllString reSecretKV redactedChars s
  let s2 := replaceAllString rePrivateKey redactedChars s1
  let s3 := replaceAllString reConnStr redactedChars s2
  let s4 := replaceAllString reBearer redactedChars s3
  let s5 := replaceAllString rePasswordValue redactedChars s4
  let s6 := replaceAllString reUserValue redactedChars s5
  let s7 := replaceAllString reQuotedSecret redactedChars s6
  let s8 := replaceAllString reSecretValueField redactedChars s7
  let s9 := replaceAllString reIPv4 redactedChars s8
  let s10 := replaceAllString reIPv6 redactedChars s9
  urlReplaceAllString s10

def sanitizeContent (s : String) : String := String.mk (sanitizeList s.data)

/-! ### Filesystem model and `scanDirectory` -/

/-- A regular file visible to the walk: its full path, base name, content,
and whether `os.ReadFile` succeeds on it. -/
structure FSFile where
  path : String
  name : String
  content : String
  readable : Bool

/-- A filesystem: the set of existing directories and the regular files in
the order `filepath.Walk` visits them. -/
structure FileSystem where
  dirs : List String
  files : List FSFile

/-- `filepath.Join` for the clean relative segments used by the pipeline. -/
def pathJoin (a b : String) : String := if a == "" then b else a ++ "/" ++ b

/-- `extractFileContent`: `os.ReadFile` surfacing read failures. -/
def extractFileContent (fs : FileSystem) (path : String) : Except String String :=
  match fs.files.find? (fun f => f.path == path && f.readable) with
  | some f => .ok f.content
  | none => .error ("open " ++ path ++ ": no such file or directory")

/-- The error string `scanDirectory` embeds when `filepath.Walk` fails on a
missing root: the walk function receives the `lstat` error for the root,
returns it, and `scanDirectory` formats it into the result. -/
def walkErrorMessage (dir : String) : String :=
  "Error scanning directory " ++ dir ++ ": lstat " ++ dir ++ ": no such file or directory"

/-- One `"File: <path>\n<content>\n\n"` block of the scanned document. -/
def fileBlock (f : FSFile) : String := "File: " ++ f.path ++ "\n" ++ f.content ++ "\n\n"

/-- `scanDirectory`: walk the subtree under `dir`, and for each regular file
whose name ends with one of `extensions` and which is readable, append its
block; unreadable matched files are skipped.  If the root does not exist the
walk aborts with the `lstat` error and the formatted error text is returned
instead. -/
def scanDirectory (fs : FileSystem) (dir : String) (extensions : List String) : String :=
  if fs.dirs.contains dir then
    String.join ((fs.files.filter (fun f =>
      listStarts f.path.data (dir ++ "/").data
        && extensions.any (fun ext => listEnds f.name.data ext.data)
        && f.readable)).map fileBlock)
  else walkErrorMessage dir

/-! ### Config loading and client construction -/

/-- The line loop of `loadConfig`: skip blank and `#` lines, split each
remaining line at the first `=` (lines without `=` yield a single part and
are skipped), trim key and value.  The resulting association list keeps
insertion order; the Go map's overwrite-on-duplicate is reflected by
`lookupLast`. -/
def loadConfigLines : List (List Char) → List (String × String)
  | [] => []
  | l :: rest =>
    let line := trimChars l
    if line == [] || listStarts line ['#'] then loadConfigLines rest
    else
      match splitFirstEq line with
      | some (k, v) =>
        (String.mk (trimChars k), String.mk (trimChars v)) :: loadConfigLines rest
      | none => loadConfigLines rest

def loadConfig (content : String) : List (String × String) :=
  loadConfigLines (splitLines content.data)

/-- Lookup with Go-map semantics: the last binding of a key wins. -/
def lookupLast {α : Type} : List (String × α) → String → Option α
  | [], _ => none
  | (k, v) :: rest, key =>
    match lookupLast rest key with
    | some r => some r
    | none => if k == key then some v else none

structure AIClient where
  apiKey : String
  model : String
  clientType : String
  iacPath : String
deriving DecidableEq

/-- `NewAIClient`: load the config file (`none` models an unreadable file)
and require the three keys `AI_API_KEY`, `AI_MODEL`, `AI_CLIENT` to be
present; their values are not otherwise inspected. -/
def NewAIClient (iacPath : String) (configFile : Option String) : Except String AIClient :=
  match configFile with
  | none => .error "failed to load config: open error"
  | some content =>
    let config := loadConfig content
    match lookupLast config "AI_API_KEY", lookupLast config "AI_MODEL",
        lookupLast config "AI_CLIENT" with
    | some apiKey, some model, some clientType => .ok ⟨apiKey, model, clientType, iacPath⟩
    | _, _, _ => .error "AI_API_KEY, AI_MODEL, or AI_CLIENT is not set in config"

/-! ### JSON values and parsing (`encoding/json.Unmarshal` into a generic map) -/

inductive JValue where
  | str (s : String) : JValue
  | num (lit : String) : JValue
  | bool (b : Bool) : JValue
  | null : JValue
  | arr (elems : List JValue) : JValue
  | obj (fields : List (String × JValue)) : JValue

def jsonWs (c : Char) : Bool := c == ' ' || c == '\t' || c == '\n' || c == '\r'

def skipWs : List Char → List Char
  | [] => []
  | c :: rest => if jsonWs c then skipWs rest else c :: rest

def hexVal (c : Char) : Option Nat :=
  if isDigitCh c then some (c.toNat - '0'.toNat)
  else if 'a'.toNat ≤ c.toNat && c.toNat ≤ 'f'.toNat then some (c.toNat - 'a'.toNat + 10)
  else if 'A'.toNat ≤ c.toNat && c.toNat ≤ 'F'.toNat then some (c.toNat - 'A'.toNat + 10)
  else none

/-- Parse the body of a JSON string after the opening quote, handling the
standard escapes; returns the decoded characters and the rest after the
closing quote. -/
def parseStrBody : Nat → List Char → Option (List Char × List Char)
  | 0, _ => none
  | _ + 1, [] => none
  | fuel + 1, c :: rest =>
    if c == '"' then some ([], rest)
    else if c == '\\' then
      match rest with
      | [] => none
      | e :: rest2 =>
        if e == 'u' then
          match rest2 with
          | h1 :: h2 :: h3 :: h4 :: rest3 =>
            match hexVal h1, hexVal h2, hexVal h3, hexVal h4 with
            | some a, some b, some c2, some d =>
              match parseStrBody fuel rest3 with
              | some (tail, rem) => some (Char.ofNat (((a * 16 + b) * 16 + c2) * 16 + d) :: tail, rem)
              | none => none
            | _, _, _, _ => none
          | _ => none
        else
          match (if e == '"' then some '"' else if e == '\\' then some '\\'
            else if e == '/' then some '/' else if e == 'b' then some '\x08'
            else if e == 'f' then some '\x0c' else if e == 'n' then some '\n'
            else if e == 'r' then some '\r' else if e == 't' then some '\t'
            else none) with
          | some d =>
            match parseStrBody fuel rest2 with
            | some (tail, rem) => some (d :: tail, rem)
            | none => none
          | none => none
    else
      match parseStrBody fuel rest with
      | some (tail, rem) => some (c :: tail, rem)
      | none => none

def takeDigits : List Char → (List Char × List Char)
  | [] => ([], [])
  | c :: rest =>
    if isDigitCh c then
      let (d, r) := takeDigits rest
      (c :: d, r)
    else ([], c :: rest)

/-- Lex a JSON number (`-?(0|[1-9][0-9]*)(\.[0-9]+)?([eE][+-]?[0-9]+)?`),
returning its lexeme; the numeric value is never inspected by the decoder. -/
def parseNum (s : List Char) : Option (List Char × List Char) :=
  let (neg, s1) : List Char × List Char :=
    match s with
    | c :: rest => if c == '-' then ([c], rest) else ([], s)
    | [] => ([], [])
  match s1 with
  | [] => none
  | c :: rest =>
    if !isDigitCh c then none
    else
      let (intPart, r1) : List Char × List Char :=
        if c == '0' then ([c], rest)
        else
          let (d, r) := takeDigits rest
          (c :: d, r)
      let (fracPart, r2) : List Char × List Char :=
        match r1 with
        | '.' :: d1 :: dr =>
          if isDigitCh d1 then
            let (d, r) := takeDigits dr
            ('.' :: d1 :: d, r)
          else ([], r1)
        | _ => ([], r1)
      let (expPart, r3) : List Char × List Char :=
        match r2 with
        | e :: er =>
          if e == 'e' || e == 'E' then
            match er with
            | sg :: d1 :: dr =>
              if (sg == '+' || sg == '-') && isDigitCh d1 then
                let (d, r) := takeDigits dr
                (e :: sg :: d1 :: d, r)
              else if isDigitCh sg then
                let (d, r) := takeDigits (d1 :: dr)
                (e :: sg :: d, r)
              else ([], r2)
            | [sg] =>
              if isDigitCh sg then ([e, sg], []) else ([], r2)
            | [] => ([], r2)
          else ([], r2)
        | [] => ([], r2)
      some (neg ++ intPart ++ fracPart ++ expPart, r3)

/-- Parsing mode: a full value, the members of an object after `\x7b`, or the
elements of an array after `[`. -/
inductive PMode where
  | val : PMode
  | members : PMode
  | elems : PMode

/-- Recursive-descent JSON parser.  In `members` mode the result is the
`.obj` of the remaining fields, in `elems` mode the `.arr` of the remaining
elements.  Fuel decreases on every recursive call; `length + 1` suffices
since every call consumes at least one character. -/
def parseJ : Nat → PMode → List Char → Option (JValue × List Char)
  | 0, _, _ => none
  | fuel + 1, .val, s =>
    match skipWs s with
    | [] => none
    | c :: rest =>
      if c == '"' then
        match parseStrBody (rest.length + 1) rest with
        | some (content, rem) => some (.str (String.mk content), rem)
        | none => none
      else if c == lbraceCh then
        match skipWs rest with
        | d :: rest2 => if d == rbraceCh then some (.obj [], rest2) else parseJ fuel .members rest
        | [] => none
      else if c == '[' then
        match skipWs rest with
        | ']' :: rest2 => some (.arr [], rest2)
        | _ :: _ => parseJ fuel .elems rest
        | [] => none
      else if c == 't' then
        match rest with
        | 'r' :: 'u' :: 'e' :: r => some (.bool true, r)
        | _ => none
      else if c == 'f' then
        match rest with
        | 'a' :: 'l' :: 's' :: 'e' :: r => some (.bool false, r)
        | _ => none
      else if c == 'n' then
        match rest with
        | 'u' :: 'l' :: 'l' :: r => some (.null, r)
        | _ => none
      else
        match parseNum (c :: rest) with
        | some (lex, rem) => some (.num (String.mk lex), rem)
        | none => none
  | fuel + 1, .members, s =>
    match skipWs s with
    | c :: rest =>
      if c == '"' then
        match parseStrBody (rest.length + 1) rest with
        | some (keyChars, afterKey) =>
          match skipWs afterKey with
          | ':' :: afterColon =>
            match parseJ fuel .val afterColon with
            | some (v, afterVal) =>
              (match skipWs afterVal with
              | ',' :: afterComma =>
                match parseJ fuel .members afterComma with
                | some (.obj fields, rem) => some (.obj ((String.mk keyChars, v) :: fields), rem)
                | _ => none
              | d :: afterD =>
                if d == rbraceCh then some (.obj [(String.mk keyChars, v)], afterD) else none
              | [] => none)
            | none => none
          | _ => none
        | none => none
      else none
    | [] => none
  | fuel + 1, .elems, s =>
    match parseJ fuel .val s with
    | some (v, afterVal) =>
      (match skipWs afterVal with
      | ',' :: afterComma =>
        match parseJ fuel .elems afterComma with
        | some (.arr tail, rem) => some (.arr (v :: tail), rem)
        | _ => none
      | ']' :: afterBr => some (.arr [v], afterBr)
      | _ => none)
    | none => none

/-- `json.Unmarshal` of a whole input: one value, trailing whitespace only. -/
def jsonParse (s : String) : Option JValue :=
  match parseJ (s.data.length + 1) .val s.data with
  | some (v, rest) => if skipWs rest == [] then some v else none
  | none => none

/-- `json.Unmarshal` into `map[string]interface\x7b\x7d`: also fails when the
top-level value is not an object. -/
def jsonParseObj (s : String) : Option (List (String × JValue)) :=
  match jsonParse s with
  | some (.obj fields) => some fields
  | _ => none

/-! ### The response-decoding step of `RunAI` (lines 125-141) -/

/-- The possible outcomes of the decoding step.  `panicked` is the runtime
panic of the unchecked type assertion `content[0].(map[string]interface\x7b\x7d)`
when the first element of the `content` array is not a JSON object. -/
inductive DecodeOutcome where
  | ok (text : String) : DecodeOutcome
  | parseError : DecodeOutcome
  | noContent : DecodeOutcome
  | noText : DecodeOutcome
  | panicked : DecodeOutcome
deriving DecidableEq

/-- The decode sequence of `RunAI`: unmarshal into a generic map, require a
non-empty `content` array, take the `text` string of its first element.  The
`content` lookup and the array and string assertions use the comma-ok form
(distinct errors); the map assertion on `content[0]` does not (panic). -/
def decodeResponse (body : String) : DecodeOutcome :=
  match jsonParseObj body with
  | none => .parseError
  | some fields =>
    match lookupLast fields "content" with
    | some (.arr elems) =>
      match elems with
      | [] => .noContent
      | first :: _ =>
        match first with
        | .obj ofields =>
          match lookupLast ofields "text" with
          | some (.str t) => .ok t
          | _ => .noText
        | _ => .panicked
    | _ => .noContent

/-! ### Backend dispatch and the pipeline -/

/-- One outbound HTTP request: URL, headers, JSON body. -/
structure NetCall where
  url : String
  headers : List (String × String)
  body : JValue

/-- The single-user-message body shared by both backends. -/
def messagesJson (input : String) : JValue :=
  .arr [.obj [("role", .str "user"), ("content", .str input)]]

/-- `getRecommendations`: dispatch on the backend kind, build the request,
and perform one network call through the oracle `net`; an unknown kind fails
before any network activity.  The second component counts outbound requests. -/
def getRecommendations (c : AIClient) (input : String)
    (net : NetCall → Except String String) : Except String String × Nat :=
  if c.clientType == "chatgpt" then
    (net ⟨"https://api.openai.com/v1/chat/completions",
      [("Content-Type", "application/json"), ("Authorization", "Bearer " ++ c.apiKey)],
      .obj [("model", .str c.model), ("messages", messagesJson input)]⟩, 1)
  else if c.clientType == "anthropic_messages" then
    (net ⟨"https://api.anthropic.com/v1/messages",
      [("Content-Type", "application/json"), ("x-api-key", c.apiKey),
        ("anthropic-version", "2023-06-01")],
      .obj [("model", .str c.model), ("max_tokens", .num "1024"),
        ("messages", messagesJson input)]⟩, 1)
  else (.error ("unsupported AI client: " ++ c.clientType), 0)

/-- The result of a whole pipeline run: success text, a failure message, or
the decode-step panic. -/
inductive RunOutcome where
  | ok (text : String) : RunOutcome
  | err (msg : String) : RunOutcome
  | panicked : RunOutcome
deriving DecidableEq

/-- The environment of one run: the filesystem, the user's confirmation
answer, whether writing `ai_input.txt` succeeds, and the network oracle. -/
structure RunEnv where
  fs : FileSystem
  response : String
  saveOk : Bool
  net : NetCall → Except String String

/-- The fixed prompt template of `RunAI`. -/
def assemblePrompt (tf ans plan : String) : String :=
  "Please provide comprehensive infrastructure recommendations based on the following:\n\nTerraform Code and OPA Rego Policies:\n"
    ++ tf
    ++ "\n\nAnsible Code and OPA Rego Policies:\n" ++ ans
    ++ "\n\nTerraform Plan:\n" ++ plan
    ++ "\n\nConsider all aspects including infrastructure provisioning, configuration management, security policies, and best practices."

/-- `RunAI`: scan and sanitize both subtrees, read and sanitize the plan
(substituting the not-found marker), assemble the prompt, save it, ask for
confirmation, dispatch, and decode.  The count is the number of outbound
network requests issued.  (The `%v` detail of the parse-error message is
elided.) -/
def RunAI (c : AIClient) (env : RunEnv) : RunOutcome × Nat :=
  let terraformAndRegoCode := scanDirectory env.fs (pathJoin c.iacPath "terraform") [".tf", ".rego"]
  let ansibleAndRegoCode :=
    scanDirectory env.fs (pathJoin c.iacPath "ansible") [".yml", ".yaml", ".rego"]
  let terraformPlan :=
    match extractFileContent env.fs (pathJoin (pathJoin c.iacPath "terraform") "plan.json") with
    | .error _ => "Terraform plan not found"
    | .ok content => sanitizeContent content
  let input := assemblePrompt (sanitizeContent terraformAndRegoCode)
    (sanitizeContent ansibleAndRegoCode) terraformPlan
  if env.saveOk = false then (.err "failed to save AI input: write error", 0)
  else if strToLower env.response ≠ "yes" then (.err "operation cancelled by user", 0)
  else
    match getRecommendations c input env.net with
    | (.error e, n) => (.err ("failed to get recommendations: " ++ e), n)
    | (.ok recommendations, n) =>
      match decodeResponse recommendations with
      | .ok text => (.ok text, n)
      | .parseError => (.err "failed to parse response", n)
      | .noContent => (.err "no content found in the response", n)
      | .noText => (.err "unable to extract text content from the response", n)
      | .panicked => (.panicked, n)

/-! ### Small auxiliary definitions used by the statements -/

def isOkE {ε α : Type} : Except ε α → Bool
  | .ok _ => true
  | .error _ => false

/-- `n` concatenated copies of the `[REDACTED]` token. -/
def repRedacted : Nat → String
  | 0 => ""
  | n + 1 => "[REDACTED]" ++ repRedacted n

/-- A run environment whose confirmation answer is "no". -/
def demoEnvNo : RunEnv := ⟨⟨[], []⟩, "no", true, fun _ => .error "unreachable"⟩

/-! ### A syntactic requiredness analysis for no-match reasoning -/

/-- `Requires q re` certifies syntactically that every successful match of
`re` must consume at least one character satisfying `q`: a character class
all of whose members satisfy `q`, a sequence one of whose parts requires
`q`, or an alternation both of whose branches do. -/
inductive Requires (q : Char → Bool) : RE → Prop where
  | cls {p : Char → Bool} (h : ∀ c, p c = true → q c = true) : Requires q (RE.cls p)
  | seqL {a b : RE} (h : Requires q a) : Requires q (RE.seq a b)
  | seqR {a b : RE} (h : Requires q b) : Requires q (RE.seq a b)
  | alt {a b : RE} (ha : Requires q a) (hb : Requires q b) : Requires q (RE.alt a b)

/-- The class of `:`. -/
def qColon (c : Char) : Bool := c == ':'

/-- The class `[=:]`. -/
def qEqColon (c : Char) : Bool := c == '=' || c == ':'

/-- The class of a case-insensitive literal character. -/
def qCI (d : Char) (c : Char) : Bool := c.toLower == d.toLower

/-! ## Theorems -/

/-! ### C1 — scan of a missing root directory -/

/-- C1 (corrected), counterexample: `scanDirectory` on a filesystem without
the root directory does NOT return the empty document; it returns the
formatted walk-error text embedded in the result. -/
theorem c1_counterexample :
    scanDirectory ⟨[], []⟩ "terraform" [".tf", ".rego"] ≠ "" ∧
    scanDirectory ⟨[], []⟩ "terraform" [".tf", ".rego"] = walkErrorMessage "terraform" := by
  decide

/-- C1 (amended): for every filesystem, root directory and extension list,
if the root does not exist then `scanDirectory` returns the formatted
`Error scanning directory ...` text (error text embedded in the string
result, not an empty document and not a separate error value). -/
theorem c1_missing_root_yields_error_text (fs : FileSystem) (dir : String)
    (exts : List String) (h : fs.dirs.contains dir = false) :
    scanDirectory fs dir exts = walkErrorMessage dir := by
  unfold scanDirectory
  rw [h]
  rfl

/-- Witness for C1's amended theorem at a concrete missing root. -/
theorem c1_missing_root_yields_error_text_witness :
    (FileSystem.mk [] []).dirs.contains "terraform" = false ∧
    scanDirectory ⟨[], []⟩ "terraform" [".tf", ".rego"] = walkErrorMessage "terraform" :=
  ⟨by decide, c1_missing_root_yields_error_text ⟨[], []⟩ "terraform" [".tf", ".rego"] (by decide)⟩

/-! ### C3 — client construction and the three config keys -/

/-- C3 (corrected), counterexample: a config file in which `AI_API_KEY` is
present but EMPTY still constructs a client (with an empty API key), so
construction does not require the three fields to be non-empty. -/
theorem c3_counterexample :
    NewAIClient "p" (some "AI_API_KEY=\nAI_MODEL=m\nAI_CLIENT=c") = .ok ⟨"", "m", "c", "p"⟩ := by
  rfl

/-- C3 (amended): construction succeeds exactly when the three keys
`AI_API_KEY`, `AI_MODEL`, `AI_CLIENT` are PRESENT in the parsed config;
their values, possibly empty, are not inspected. -/
theorem c3_construction_iff_keys_present (iac content : String) :
    isOkE (NewAIClient iac (some content)) =
      ((lookupLast (loadConfig content) "AI_API_KEY").isSome &&
       (lookupLast (loadConfig content) "AI_MODEL").isSome &&
       (lookupLast (loadConfig content) "AI_CLIENT").isSome) := by
  unfold NewAIClient
  cases hk : lookupLast (loadConfig content) "AI_API_KEY" <;>
    cases hm : lookupLast (loadConfig content) "AI_MODEL" <;>
      cases ht : lookupLast (loadConfig content) "AI_CLIENT" <;>
        simp [hk, hm, ht, isOkE]

/-! ### C6 — distinct decode outcomes -/

/-- C6 (confirmed): the decode step returns the extracted text on the
canonical success shape, and fails with three pairwise distinct error kinds
on invalid JSON, on a missing or empty `content` array, and on a missing
`text` field. -/
theorem c6_decode_distinct_outcomes :
    decodeResponse "\x7b\"content\":[\x7b\"text\":\"X\"\x7d]\x7d" = .ok "X" ∧
    decodeResponse "not json" = .parseError ∧
    decodeResponse "\x7b\"content\":[]\x7d" = .noContent ∧
    decodeResponse "\x7b\x7d" = .noContent ∧
    decodeResponse "\x7b\"content\":[\x7b\"note\":\"y\"\x7d]\x7d" = .noText ∧
    DecodeOutcome.parseError ≠ DecodeOutcome.noContent ∧
    DecodeOutcome.parseError ≠ DecodeOutcome.noText ∧
    DecodeOutcome.noContent ≠ DecodeOutcome.noText ∧
    DecodeOutcome.ok "X" ≠ DecodeOutcome.parseError ∧
    DecodeOutcome.ok "X" ≠ DecodeOutcome.noContent ∧
    DecodeOutcome.ok "X" ≠ DecodeOutcome.noText := by
  decide

/-! ### C7 — non-affirmative confirmation cancels before any network call -/

/-- C7 (confirmed): whenever the prompt was saved and the confirmation
answer is anything whose lowercasing differs from "yes", the run ends with
the exact cancellation failure and zero outbound requests. -/
theorem c7_non_affirmative_cancels (c : AIClient) (env : RunEnv)
    (hsave : env.saveOk = true) (hresp : strToLower env.response ≠ "yes") :
    RunAI c env = (.err "operation cancelled by user", 0) := by
  simp [RunAI, hsave, hresp]

/-- Witness for C7 at the concrete answer "no". -/
theorem c7_non_affirmative_cancels_witness :
    (demoEnvNo.saveOk = true ∧ strToLower demoEnvNo.response ≠ "yes") ∧
    RunAI ⟨"k", "m", "chatgpt", "iac"⟩ demoEnvNo = (.err "operation cancelled by user", 0) :=
  ⟨⟨rfl, by decide⟩, c7_non_affirmative_cancels ⟨"k", "m", "chatgpt", "iac"⟩ demoEnvNo rfl (by decide)⟩

/-! ### C8 — unknown backend kind fails before any network call -/

/-- C8 (confirmed): for every client whose backend kind is neither
"chatgpt" nor "anthropic_messages", dispatch fails immediately with the
unsupported-client error and performs zero network requests. -/
theorem c8_unsupported_backend_no_network (c : AIClient) (input : String)
    (net : NetCall → Except String String)
    (h1 : c.clientType ≠ "chatgpt") (h2 : c.clientType ≠ "anthropic_messages") :
    getRecommendations c input net = (.error ("unsupported AI client: " ++ c.clientType), 0) := by
  simp [getRecommendations, h1, h2]

/-- Witness for C8 at the concrete backend kind "gemini". -/
theorem c8_unsupported_backend_no_network_witness :
    (("gemini" : String) ≠ "chatgpt" ∧ ("gemini" : String) ≠ "anthropic_messages") ∧
    getRecommendations ⟨"k", "m", "gemini", "p"⟩ "hi" (fun _ => .error "down") =
      (.error ("unsupported AI client: " ++ "gemini"), 0) :=
  ⟨⟨by decide, by decide⟩,
    c8_unsupported_backend_no_network ⟨"k", "m", "gemini", "p"⟩ "hi" (fun _ => .error "down")
      (by decide) (by decide)⟩

/-! ### C10 — decoding is not total: a non-object first element panics -/

/-- C10 (code bug): on the response body with a non-empty `content` array
whose first element is a number, the decode step reaches the unchecked type
assertion and panics instead of returning an error. -/
theorem c10_first_element_not_object_panics :
    decodeResponse "\x7b\"content\":[5]\x7d" = .panicked ∧
    DecodeOutcome.panicked ≠ .parseError ∧
    DecodeOutcome.panicked ≠ .noContent ∧
    DecodeOutcome.panicked ≠ .noText := by
  decide

/-! ### C2 — key/value secret redaction -/

/-- C2 (corrected), counterexample: an occurrence of the assigned value
OUTSIDE the assignment survives sanitization unredacted, so the output is
not free of the value for every input containing such an assignment. -/
theorem c2_counterexample :
    sanitizeContent "password = \"hunter2\" hunter2" = "[REDACTED] hunter2" ∧
    hasSub (sanitizeContent "password = \"hunter2\" hunter2").data "hunter2".data = true := by
  decide

/-! ### C4 — URL host redaction -/

/-- C4 (corrected), counterexample: for the URL `https://1.2.3.4.5/a` the
earlier IPv4 pass rewrites part of the host first, the URL pass then no
longer matches, and part of the host (".5") survives: the host component is
not always fully replaced. -/
theorem c4_counterexample :
    sanitizeContent "https://1.2.3.4.5/a" = "https://[REDACTED].5/a" ∧
    sanitizeContent "https://1.2.3.4.5/a" ≠ "https://[REDACTED]/a" := by
  decide

/-! ### C9 — IP literal redaction -/

/-- C9 (corrected), counterexample: the compressed IPv6 literal
`2001:db8::1` is a well-formed IPv6 literal embedded in text (here, the
whole text), yet sanitization replaces only `2001:db8::` and leaves the
trailing `1`, so the literal is not replaced by `[REDACTED]` as a whole. -/
theorem c9_counterexample :
    sanitizeContent "2001:db8::1" = "[REDACTED]1" ∧
    sanitizeContent "2001:db8::1" ≠ "[REDACTED]" := by
  decide

/-- C9 (amended): the pattern set replaces specific well-separated IP
literals as the claim intends — `a 10.0.0.1 b` and the full eight-group
IPv6 example both become `a [REDACTED] b` — but not every well-formed
embedded literal: a literal directly adjacent to word characters is not
matched at all (`id1.2.3.4` is returned unchanged), and a word-boundary-
delimited literal that overlaps an earlier leftmost match survives in part
(`a 1.2.3.4.5 b` yields `a [REDACTED].5 b`, leaving part of the
boundary-delimited literal `2.3.4.5` unredacted). -/
theorem c9_boundary_ip_redacted :
    sanitizeContent "a 10.0.0.1 b" = "a [REDACTED] b" ∧
    sanitizeContent "a 2001:0db8:85a3:0000:0000:8a2e:0370:7334 b" = "a [REDACTED] b" ∧
    sanitizeContent "id1.2.3.4" = "id1.2.3.4" ∧
    sanitizeContent "a 1.2.3.4.5 b" = "a [REDACTED].5 b" := by
  decide

/-! ### Generic no-match lemmas -/

/-- If the continuation fails on every suffix, the greedy class star fails. -/
theorem starGo_none {A : Type} (p : Char → Bool) :
    ∀ (s : List Char) (k : Option Char → List Char → Option A),
      (∀ pr t, t.IsSuffix s → k pr t = none) → ∀ prev, starGo p k prev s = none := by
  intro s
  induction s with
  | nil =>
    intro k hk prev
    exact hk prev [] (List.suffix_refl _)
  | cons c rest ih =>
    intro k hk prev
    show cond (p c) (altOr (starGo p k (some c) rest) (k prev (c :: rest))) (k prev (c :: rest))
      = none
    rw [ih k (fun pr t ht => hk pr t (ht.trans (List.suffix_cons c rest))) (some c),
      hk prev (c :: rest) (List.suffix_refl _)]
    cases p c <;> rfl

/-- The matcher only calls its continuation on suffixes of the input: if the
continuation fails on every suffix, the whole match fails. -/
theorem mre_none_of_k_none {A : Type} :
    ∀ (re : RE) (s : List Char) (k : Option Char → List Char → Option A),
      (∀ pr t, t.IsSuffix s → k pr t = none) → ∀ prev, mre re prev s k = none := by
  intro re
  induction re with
  | eps =>
    intro s k hk prev
    exact hk prev s (List.suffix_refl _)
  | cls p =>
    intro s k hk prev
    cases s with
    | nil => rfl
    | cons c rest =>
      show cond (p c) (k (some c) rest) none = none
      rw [hk (some c) rest (List.suffix_cons c rest)]
      cases p c <;> rfl
  | seq a b iha ihb =>
    intro s k hk prev
    show mre a prev s (fun p2 t => mre b p2 t k) = none
    exact iha s _ (fun pr t ht => ihb t k (fun pr2 t2 ht2 => hk pr2 t2 (ht2.trans ht)) pr) prev
  | alt a b iha ihb =>
    intro s k hk prev
    show altOr (mre a prev s k) (mre b prev s k) = none
    rw [iha s k hk prev, ihb s k hk prev]
    rfl
  | starCls p =>
    intro s k hk prev
    exact starGo_none p s k hk prev
  | wordB =>
    intro s k hk prev
    show cond (isWordOpt prev != isWordOpt s.head?) (k prev s) none = none
    rw [hk prev s (List.suffix_refl _)]
    cases isWordOpt prev != isWordOpt s.head? <;> rfl

/-- A pattern that requires a `q`-character cannot match inside a string
that contains none. -/
theorem mre_none_of_requires {A : Type} {q : Char → Bool} :
    ∀ {re : RE}, Requires q re → ∀ (s : List Char), (∀ c ∈ s, q c = false) →
      ∀ prev (k : Option Char → List Char → Option A), mre re prev s k = none := by
  intro re hreq
  induction hreq with
  | @cls p h =>
    intro s hs prev k
    cases s with
    | nil => rfl
    | cons c rest =>
      show cond (p c) (k (some c) rest) none = none
      cases hpc : p c with
      | false => rfl
      | true =>
        have hq : q c = true := h c hpc
        rw [hs c (List.mem_cons_self c rest)] at hq
        exact absurd hq (by decide)
  | @seqL a b _ iha =>
    intro s hs prev k
    show mre a prev s (fun p2 t => mre b p2 t k) = none
    exact iha s hs prev _
  | @seqR a b _ ihb =>
    intro s hs prev k
    show mre a prev s (fun p2 t => mre b p2 t k) = none
    apply mre_none_of_k_none
    intro pr t ht
    exact ihb t (fun c hc => hs c (ht.subset hc)) pr k
  | @alt a b _ _ iha ihb =>
    intro s hs prev k
    show altOr (mre a prev s k) (mre b prev s k) = none
    rw [iha s hs prev k, ihb s hs prev k]
    rfl

/-- The match attempt fails when the pattern requires a character the
string does not contain. -/
theorem matchAt_none_of_requires {q : Char → Bool} {re : RE} (hreq : Requires q re)
    (s : List Char) (hs : ∀ c ∈ s, q c = false) (prev : Option Char) :
    matchAt re prev s = none :=
  mre_none_of_requires hreq s hs prev _

/-- Leftmost search finds nothing when the pattern requires a character the
string does not contain. -/
theorem findFrom_none_of_requires {q : Char → Bool} {re : RE} (hreq : Requires q re) :
    ∀ (s : List Char), (∀ c ∈ s, q c = false) → ∀ prev, findFrom re prev s = none := by
  intro s
  induction s with
  | nil =>
    intro hs prev
    rw [findFrom, matchAt_none_of_requires hreq [] hs prev]
  | cons c rest ih =>
    intro hs prev
    rw [findFrom, matchAt_none_of_requires hreq (c :: rest) hs prev,
      ih (fun d hd => hs d (List.mem_cons_of_mem c hd)) (some c)]

/-- `ReplaceAllString` is the identity when the pattern cannot match. -/
theorem replaceAllAux_id {q : Char → Bool} {re : RE} (hreq : Requires q re) (repl : List Char) :
    ∀ (fuel : Nat) (s : List Char), (∀ c ∈ s, q c = false) → ∀ prev,
      replaceAllAux re repl fuel prev s = s := by
  intro fuel
  cases fuel with
  | zero => intro s _ prev; rfl
  | succ f =>
    intro s hs prev
    rw [replaceAllAux, findFrom_none_of_requires hreq s hs prev]

theorem replaceAllString_id {q : Char → Bool} {re : RE} (hreq : Requires q re)
    (repl : List Char) (s : List Char) (hs : ∀ c ∈ s, q c = false) :
    replaceAllString re repl s = s :=
  replaceAllAux_id hreq repl (s.length + 1) s hs none

/-! ### Requiredness of the individual patterns -/

/-- `\s*[=:]\s*` requires an `=` or `:`. -/
theorem req_sepEq : Requires qEqColon sepEq := .seqR (.seqL (.cls fun _ h => h))

theorem req_reSecretKV : Requires qEqColon reSecretKV := .seqR (.seqL req_sepEq)

theorem req_rePrivateKey : Requires qEqColon rePrivateKey := .seqR (.seqL req_sepEq)

theorem req_reConnStr : Requires qEqColon reConnStr := .seqR (.seqL req_sepEq)

/-- The bearer pattern requires (case-insensitively) the letter `b`. -/
theorem req_reBearer : Requires (qCI 'b') reBearer := .seqL (.seqL (.cls fun _ h => h))

/-- Every nested-value pattern requires (case-insensitively) the letter `v`
of its mandatory `value` literal. -/
theorem req_valueFieldRE (key : RE) : Requires (qCI 'v') (valueFieldRE key) :=
  .seqR (.seqR (.seqR (.seqR (.seqR (.seqR (.seqR (.seqR (.seqR (.seqR
    (.seqL (.seqL (.cls fun _ h => h))))))))))))

theorem req_rePasswordValue : Requires (qCI 'v') rePasswordValue := req_valueFieldRE _

theorem req_reUserValue : Requires (qCI 'v') reUserValue := req_valueFieldRE _

theorem req_reSecretValueField : Requires (qCI 'v') reSecretValueField := req_valueFieldRE _

/-- The quoted-secret pattern requires a quote character. -/
theorem req_reQuotedSecret : Requires isQuoteCh reQuotedSecret :=
  .seqR (.seqR (.seqR (.seqR (.seqR (.seqR (.seqR (.seqL (.cls fun _ h => h))))))))

/-- A match of a literal `2` is a digit. -/
theorem digit_of_two : ∀ c : Char, (c == '2') = true → isDigitCh c = true := by
  intro c h
  rw [eq_of_beq h]
  decide

/-- Every alternative of the IPv4 octet requires a digit. -/
theorem req_octet : Requires isDigitCh octet :=
  .alt (.seqL (.seqL (.cls digit_of_two)))
    (.alt (.seqL (.seqL (.cls digit_of_two)))
      (.seqR (.seqL (.cls fun _ h => h))))

theorem req_reIPv4 : Requires isDigitCh reIPv4 := .seqR (.seqL (.seqL (.seqL req_octet)))

/-- `[0-9a-fA-F]{1,4}:` requires a colon. -/
theorem req_hcGroup : Requires qColon hcGroup := .seqR (.cls fun _ h => h)

/-- `(?:[0-9a-fA-F]{1,4}:){1,n}` requires a colon. -/
theorem req_repRangeHc (n : Nat) : Requires qColon (repRange hcGroup 1 n) :=
  .seqL (.seqL req_hcGroup)

/-- Each of the twelve IPv6 alternatives requires a colon. -/
theorem req_ipv6Body : Requires qColon ipv6Body :=
  .alt (.seqL (.seqL req_hcGroup))
  (.alt (.seqR (.cls fun _ h => h))
  (.alt (.seqR (.seqL (.cls fun _ h => h)))
  (.alt (.seqL (req_repRangeHc _))
  (.alt (.seqL (req_repRangeHc _))
  (.alt (.seqL (req_repRangeHc _))
  (.alt (.seqL (req_repRangeHc _))
  (.alt (.seqR (.seqL (.cls fun _ h => h)))
  (.alt (.seqL (.cls fun _ h => h))
  (.alt (.seqL (.seqR (.seqR (.seqR (.seqR (.seqL (.cls fun _ h => h)))))))
  (.alt (.seqL (.cls fun _ h => h))
        (.seqR (.seqL (.cls fun _ h => h)))))))))))))

theorem req_reIPv6 : Requires qColon reIPv6 := .seqR (.seqL req_ipv6Body)

/-- `(https?://)` requires a colon. -/
theorem req_urlG1 : Requires qColon urlG1 := .seqR (.seqR (.seqL (.cls fun _ h => h)))

/-! ### The URL pass is the identity on colon-free text -/

theorem urlMatchAt_none {A : Type} (s : List Char) (hs : ∀ c ∈ s, qColon c = false)
    (prev : Option Char) (k : List Char → List Char → List Char → Option A) :
    urlMatchAt prev s k = none :=
  mre_none_of_requires req_urlG1 s hs prev _

theorem urlFindFrom_none : ∀ (s : List Char), (∀ c ∈ s, qColon c = false) →
    ∀ prev, urlFindFrom prev s = none := by
  intro s
  induction s with
  | nil =>
    intro hs prev
    rw [urlFindFrom, urlMatchAt_none [] hs prev]
  | cons c rest ih =>
    intro hs prev
    rw [urlFindFrom, urlMatchAt_none (c :: rest) hs prev,
      ih (fun d hd => hs d (List.mem_cons_of_mem c hd)) (some c)]

theorem urlReplaceAllAux_id : ∀ (fuel : Nat) (s : List Char),
    (∀ c ∈ s, qColon c = false) → ∀ prev, urlReplaceAllAux fuel prev s = s := by
  intro fuel
  cases fuel with
  | zero => intro s _ prev; rfl
  | succ f =>
    intro s hs prev
    rw [urlReplaceAllAux, urlFindFrom_none s hs prev]

theorem urlReplaceAllString_id (s : List Char) (hs : ∀ c ∈ s, qColon c = false) :
    urlReplaceAllString s = s :=
  urlReplaceAllAux_id (s.length + 1) s hs none

/-! ### C5 — idempotence on already-redacted text -/

theorem strMk_data (s : String) : String.mk s.data = s := rfl

theorem strData_append (a b : String) : (a ++ b).data = a.data ++ b.data := rfl

/-- Every character of `n` concatenated `[REDACTED]` tokens is a character
of the token. -/
theorem repRedacted_data_subset : ∀ (n : Nat), ∀ c ∈ (repRedacted n).data, c ∈ "[REDACTED]".data := by
  intro n
  induction n with
  | zero =>
    intro c hc
    exact absurd hc (List.not_mem_nil c)
  | succ m ih =>
    intro c hc
    rw [repRedacted, strData_append] at hc
    rcases List.mem_append.mp hc with h | h
    · exact h
    · exact ih c h

theorem redacted_no_qEqColon : ∀ c ∈ "[REDACTED]".data, qEqColon c = false := by decide

theorem redacted_no_b : ∀ c ∈ "[REDACTED]".data, qCI 'b' c = false := by decide

theorem redacted_no_v : ∀ c ∈ "[REDACTED]".data, qCI 'v' c = false := by decide

theorem redacted_no_quote : ∀ c ∈ "[REDACTED]".data, isQuoteCh c = false := by decide

theorem redacted_no_digit : ∀ c ∈ "[REDACTED]".data, isDigitCh c = false := by decide

theorem redacted_no_colon : ∀ c ∈ "[REDACTED]".data, qColon c = false := by decide

/-- C5 (confirmed): sanitizing a string consisting of `[REDACTED]` tokens
only (hence containing no sensitive patterns) is a no-op, for any number of
tokens: none of the ten patterns nor the URL pass can match, because each
requires a character the token does not contain. -/
theorem c5_redaction_idempotent_on_redacted (n : Nat) :
    sanitizeContent (repRedacted n) = repRedacted n := by
  have hsub := repRedacted_data_subset n
  have h1 : ∀ c ∈ (repRedacted n).data, qEqColon c = false :=
    fun c hc => redacted_no_qEqColon c (hsub c hc)
  have h4 : ∀ c ∈ (repRedacted n).data, qCI 'b' c = false :=
    fun c hc => redacted_no_b c (hsub c hc)
  have h5 : ∀ c ∈ (repRedacted n).data, qCI 'v' c = false :=
    fun c hc => redacted_no_v c (hsub c hc)
  have h7 : ∀ c ∈ (repRedacted n).data, isQuoteCh c = false :=
    fun c hc => redacted_no_quote c (hsub c hc)
  have h9 : ∀ c ∈ (repRedacted n).data, isDigitCh c = false :=
    fun c hc => redacted_no_digit c (hsub c hc)
  have h10 : ∀ c ∈ (repRedacted n).data, qColon c = false :=
    fun c hc => redacted_no_colon c (hsub c hc)
  show String.mk (sanitizeList (repRedacted n).data) = repRedacted n
  simp only [sanitizeList]
  rw [replaceAllString_id req_reSecretKV _ _ h1,
    replaceAllString_id req_rePrivateKey _ _ h1,
    replaceAllString_id req_reConnStr _ _ h1,
    replaceAllString_id req_reBearer _ _ h4,
    replaceAllString_id req_rePasswordValue _ _ h5,
    replaceAllString_id req_reUserValue _ _ h5,
    replaceAllString_id req_reQuotedSecret _ _ h7,
    replaceAllString_id req_reSecretValueField _ _ h5,
    replaceAllString_id req_reIPv4 _ _ h9,
    replaceAllString_id req_reIPv6 _ _ h10,
    urlReplaceAllString_id _ h10]

/-! ### C2 — the amended redaction statement for a whole assignment -/

theorem altOr_eats {A : Type} {x y : Option A} {r : A} (h : x = some r) :
    altOr x y = some r := by
  rw [h]
  rfl

/-- Greedy class-star over a run `w` of class characters followed by a
non-class character: the star consumes exactly `w`, and succeeds whenever
the continuation succeeds right after the run. -/
theorem starGo_run {A : Type} (p : Char → Bool) (k : Option Char → List Char → Option A)
    (w : List Char) (d : Char) (rest : List Char) (r : A)
    (hw : ∀ c ∈ w, p c = true) (hd : p d = false)
    (hk : ∀ pr, k pr (d :: rest) = some r) :
    ∀ prev, starGo p k prev (w ++ d :: rest) = some r := by
  induction w with
  | nil =>
    intro prev
    show cond (p d) (altOr (starGo p k (some d) rest) (k prev (d :: rest))) (k prev (d :: rest))
      = some r
    rw [hd]
    exact hk prev
  | cons c w' ih =>
    intro prev
    show cond (p c)
      (altOr (starGo p k (some c) (w' ++ d :: rest)) (k prev (c :: (w' ++ d :: rest))))
      (k prev (c :: (w' ++ d :: rest))) = some r
    rw [hw c (List.mem_cons_self c w'),
      ih (fun x hx => hw x (List.mem_cons_of_mem c hx)) (some c)]
    rfl

/-- After one of the six key literals, pattern 1 deterministically consumes
` = "`, then greedily the non-empty value run of `[^\s'",]` characters, and
finally the closing quote, ending exactly at the end of the input.  The
`show` spells out the three pending backtracking frames (the two `\s*`
choice points and the optional opening quote); each is resolved in favour of
its greedy first branch. -/
theorem secretKV_tail (v : List Char) (hne : v ≠ [])
    (hv : ∀ x ∈ v, noSpaceQuoteComma x = true) (prev : Option Char) :
    mre (RE.seq sepEq (.seq quoteOpt (.seq (plusCls noSpaceQuoteComma) quoteOpt))) prev
      (' ' :: '=' :: ' ' :: '"' :: (v ++ ['"'])) (fun _ rest => some rest) = some [] := by
  obtain ⟨c, v', rfl⟩ := List.exists_cons_of_ne_nil hne
  have hc : noSpaceQuoteComma c = true := hv c (List.mem_cons_self c v')
  have hv' : ∀ x ∈ v', noSpaceQuoteComma x = true :=
    fun x hx => hv x (List.mem_cons_of_mem c hx)
  have hrun : starGo noSpaceQuoteComma
      (fun p t => mre quoteOpt p t (fun _ rest => some (rest : List Char))) (some c)
      (v' ++ ['"']) = some [] :=
    starGo_run _ _ v' '"' [] [] hv' (by decide) (fun pr => rfl) (some c)
  show altOr (altOr (altOr
      (cond (noSpaceQuoteComma c)
        (starGo noSpaceQuoteComma (fun p t => mre quoteOpt p t (fun _ rest => some rest))
          (some c) (v' ++ ['"'])) none)
      (mre (.seq (plusCls noSpaceQuoteComma) quoteOpt) (some ' ')
        ('"' :: c :: (v' ++ ['"'])) (fun _ rest => some rest)))
      (mre (.seq quoteOpt (.seq (plusCls noSpaceQuoteComma) quoteOpt)) (some '=')
        (' ' :: '"' :: c :: (v' ++ ['"'])) (fun _ rest => some rest)))
      (mre (.seq (.cls fun ch => ch == '=' || ch == ':') (.starCls isSpaceCh)) prev
        (' ' :: '=' :: ' ' :: '"' :: c :: (v' ++ ['"']))
        (fun p t => mre (.seq quoteOpt (.seq (plusCls noSpaceQuoteComma) quoteOpt)) p t
          (fun _ rest => some rest)))
    = some []
  rw [hc, hrun]
  rfl

theorem matchAt_secretKV_aws_access_key (v : List Char) (hne : v ≠ [])
    (hv : ∀ x ∈ v, noSpaceQuoteComma x = true) :
    matchAt reSecretKV none
      ('a' :: 'w' :: 's' :: '_' :: 'a' :: 'c' :: 'c' :: 'e' :: 's' :: 's' :: '_' :: 'k'
        :: 'e' :: 'y' :: ' ' :: '=' :: ' ' :: '"' :: (v ++ ['"'])) = some [] := by
  refine altOr_eats (secretKV_tail v hne hv (some 'y'))

theorem matchAt_secretKV_aws_secret_key (v : List Char) (hne : v ≠ [])
    (hv : ∀ x ∈ v, noSpaceQuoteComma x = true) :
    matchAt reSecretKV none
      ('a' :: 'w' :: 's' :: '_' :: 's' :: 'e' :: 'c' :: 'r' :: 'e' :: 't' :: '_' :: 'k'
        :: 'e' :: 'y' :: ' ' :: '=' :: ' ' :: '"' :: (v ++ ['"'])) = some [] := by
  refine altOr_eats (secretKV_tail v hne hv (some 'y'))

theorem matchAt_secretKV_password (v : List Char) (hne : v ≠ [])
    (hv : ∀ x ∈ v, noSpaceQuoteComma x = true) :
    matchAt reSecretKV none
      ('p' :: 'a' :: 's' :: 's' :: 'w' :: 'o' :: 'r' :: 'd' :: ' ' :: '=' :: ' ' :: '"'
        :: (v ++ ['"'])) = some [] := by
  refine altOr_eats (secretKV_tail v hne hv (some 'd'))

theorem matchAt_secretKV_token (v : List Char) (hne : v ≠ [])
    (hv : ∀ x ∈ v, noSpaceQuoteComma x = true) :
    matchAt reSecretKV none
      ('t' :: 'o' :: 'k' :: 'e' :: 'n' :: ' ' :: '=' :: ' ' :: '"' :: (v ++ ['"']))
      = some [] := by
  refine altOr_eats (secretKV_tail v hne hv (some 'n'))

theorem matchAt_secretKV_secret (v : List Char) (hne : v ≠ [])
    (hv : ∀ x ∈ v, noSpaceQuoteComma x = true) :
    matchAt reSecretKV none
      ('s' :: 'e' :: 'c' :: 'r' :: 'e' :: 't' :: ' ' :: '=' :: ' ' :: '"' :: (v ++ ['"']))
      = some [] := by
  refine altOr_eats (secretKV_tail v hne hv (some 't'))

theorem matchAt_secretKV_api_key (v : List Char) (hne : v ≠ [])
    (hv : ∀ x ∈ v, noSpaceQuoteComma x = true) :
    matchAt reSecretKV none
      ('a' :: 'p' :: 'i' :: '_' :: 'k' :: 'e' :: 'y' :: ' ' :: '=' :: ' ' :: '"'
        :: (v ++ ['"'])) = some [] := by
  exact secretKV_tail v hne hv (some 'y')

/-- `ReplaceAllString` on an empty input with a pattern that fails on the
empty string is the identity. -/
theorem replaceAllAux_nil (re : RE) (repl : List Char)
    (hnil : ∀ prev, matchAt re prev [] = none) :
    ∀ (fuel : Nat) (prev : Option Char), replaceAllAux re repl fuel prev [] = [] := by
  intro fuel prev
  cases fuel with
  | zero => rfl
  | succ f => rw [replaceAllAux, findFrom, hnil prev]

/-- When the whole input is one match of the pattern (and the pattern cannot
match the empty string), `ReplaceAllString` yields exactly the replacement. -/
theorem replaceAllString_whole (re : RE) (repl : List Char) (s : List Char)
    (hne : s ≠ []) (hm : matchAt re none s = some [])
    (hnil : ∀ prev, matchAt re prev [] = none) :
    replaceAllString re repl s = repl := by
  obtain ⟨c, t, rfl⟩ := List.exists_cons_of_ne_nil hne
  rw [replaceAllString, replaceAllAux, findFrom, hm]
  simp only [found, List.length_nil, Nat.sub_zero, List.take_length]
  rw [replaceAllAux_nil re repl hnil]
  simp

/-- C2 (amended): for each of the six listed key names and every non-empty
value free of whitespace, quote and comma characters, sanitizing the whole
assignment `key = "value"` yields exactly `[REDACTED]`: the first pattern
consumes the key, separator, quotes and value in one match, and no later
pattern touches the replacement token. -/
theorem c2_whole_assignment_redacted (key : String)
    (hkey : key ∈ ["aws_access_key", "aws_secret_key", "password", "token", "secret", "api_key"])
    (v : List Char) (hne : v ≠ []) (hv : ∀ c ∈ v, noSpaceQuoteComma c = true) :
    sanitizeContent (key ++ " = \"" ++ String.mk v ++ "\"") = "[REDACTED]" := by
  fin_cases hkey
  · show String.mk (sanitizeList ('a' :: 'w' :: 's' :: '_' :: 'a' :: 'c' :: 'c' :: 'e' :: 's'
      :: 's' :: '_' :: 'k' :: 'e' :: 'y' :: ' ' :: '=' :: ' ' :: '"' :: (v ++ ['"'])))
      = "[REDACTED]"
    simp only [sanitizeList]
    rw [replaceAllString_whole reSecretKV redactedChars _ (List.cons_ne_nil _ _)
      (matchAt_secretKV_aws_access_key v hne hv) (fun prev => rfl)]
    decide
  · show String.mk (sanitizeList ('a' :: 'w' :: 's' :: '_' :: 's' :: 'e' :: 'c' :: 'r' :: 'e'
      :: 't' :: '_' :: 'k' :: 'e' :: 'y' :: ' ' :: '=' :: ' ' :: '"' :: (v ++ ['"'])))
      = "[REDACTED]"
    simp only [sanitizeList]
    rw [replaceAllString_whole reSecretKV redactedChars _ (List.cons_ne_nil _ _)
      (matchAt_secretKV_aws_secret_key v hne hv) (fun prev => rfl)]
    decide
  · show String.mk (sanitizeList ('p' :: 'a' :: 's' :: 's' :: 'w' :: 'o' :: 'r' :: 'd'
      :: ' ' :: '=' :: ' ' :: '"' :: (v ++ ['"']))) = "[REDACTED]"
    simp only [sanitizeList]
    rw [replaceAllString_whole reSecretKV redactedChars _ (List.cons_ne_nil _ _)
      (matchAt_secretKV_password v hne hv) (fun prev => rfl)]
    decide
  · show String.mk (sanitizeList ('t' :: 'o' :: 'k' :: 'e' :: 'n'
      :: ' ' :: '=' :: ' ' :: '"' :: (v ++ ['"']))) = "[REDACTED]"
    simp only [sanitizeList]
    rw [replaceAllString_whole reSecretKV redactedChars _ (List.cons_ne_nil _ _)
      (matchAt_secretKV_token v hne hv) (fun prev => rfl)]
    decide
  · show String.mk (sanitizeList ('s' :: 'e' :: 'c' :: 'r' :: 'e' :: 't'
      :: ' ' :: '=' :: ' ' :: '"' :: (v ++ ['"']))) = "[REDACTED]"
    simp only [sanitizeList]
    rw [replaceAllString_whole reSecretKV redactedChars _ (List.cons_ne_nil _ _)
      (matchAt_secretKV_secret v hne hv) (fun prev => rfl)]
    decide
  · show String.mk (sanitizeList ('a' :: 'p' :: 'i' :: '_' :: 'k' :: 'e' :: 'y'
      :: ' ' :: '=' :: ' ' :: '"' :: (v ++ ['"']))) = "[REDACTED]"
    simp only [sanitizeList]
    rw [replaceAllString_whole reSecretKV redactedChars _ (List.cons_ne_nil _ _)
      (matchAt_secretKV_api_key v hne hv) (fun prev => rfl)]
    decide

/-- Witness for C2's amended theorem at key "password", value "hunter2". -/
theorem c2_whole_assignment_redacted_witness :
    (("password" : String)
        ∈ ["aws_access_key", "aws_secret_key", "password", "token", "secret", "api_key"]
      ∧ "hunter2".data ≠ []
      ∧ ∀ c ∈ "hunter2".data, noSpaceQuoteComma c = true) ∧
    sanitizeContent ("password" ++ " = \"" ++ String.mk "hunter2".data ++ "\"") = "[REDACTED]" :=
  ⟨⟨by decide, by decide, by decide⟩,
    c2_whole_assignment_redacted "password" (by decide) "hunter2".data (by decide) (by decide)⟩

/-! ### C4 — the URL pass on every well-shaped URL -/

/-- Greedy class-star consuming the entire remaining input: if every
character of `w` is in the class, the star consumes all of `w` and succeeds
whenever the continuation succeeds at the end of the input. -/
theorem starGo_all {A : Type} (p : Char → Bool) (k : Option Char → List Char → Option A)
    (w : List Char) (r : A) (hw : ∀ c ∈ w, p c = true) (hk : ∀ pr, k pr [] = some r) :
    ∀ prev, starGo p k prev w = some r := by
  induction w with
  | nil => intro prev; exact hk prev
  | cons c w' ih =>
    intro prev
    show cond (p c) (altOr (starGo p k (some c) w') (k prev (c :: w'))) (k prev (c :: w'))
      = some r
    rw [hw c (List.mem_cons_self c w'), ih (fun x hx => hw x (List.mem_cons_of_mem c hx)) (some c)]
    rfl

/-- After the scheme, the URL pattern deterministically consumes the
non-empty host run of `[\w.-]` characters (stopping at the `/`), then the
`/` through its optional group, then greedily the whitespace-free rest of
the input, so the match ends exactly at the end of the input with group
boundaries after the host and after the whole input. -/
theorem urlHostTail (h p : List Char) (hne : h ≠ [])
    (hh : ∀ c ∈ h, isHostCh c = true) (hp : ∀ c ∈ p, notSpaceCh c = true)
    (prev : Option Char) :
    mre urlG2 prev (h ++ '/' :: p)
      (fun p2 r2 => mre urlG3 p2 r2 (fun _ r3 => some (h ++ '/' :: p, r2, r3)))
      = some (h ++ '/' :: p, '/' :: p, []) := by
  obtain ⟨c, h', rfl⟩ := List.exists_cons_of_ne_nil hne
  have hc : isHostCh c = true := hh c (List.mem_cons_self c h')
  have hh' : ∀ x ∈ h', isHostCh x = true := fun x hx => hh x (List.mem_cons_of_mem c hx)
  have hk : ∀ pr : Option Char, mre urlG3 pr ('/' :: p)
      (fun _ r3 => some ((c :: h') ++ '/' :: p, '/' :: p, r3))
      = some ((c :: h') ++ '/' :: p, '/' :: p, ([] : List Char)) := by
    intro pr
    refine altOr_eats ?_
    exact starGo_all notSpaceCh (fun _ r3 => some ((c :: h') ++ '/' :: p, '/' :: p, r3)) p
      ((c :: h') ++ '/' :: p, '/' :: p, []) hp (fun pr2 => rfl) (some '/')
  have hrun := starGo_run isHostCh
    (fun p2 r2 => mre urlG3 p2 r2 (fun _ r3 => some ((c :: h') ++ '/' :: p, r2, r3)))
    h' '/' p ((c :: h') ++ '/' :: p, '/' :: p, []) hh' (by decide) hk (some c)
  show cond (isHostCh c)
      (starGo isHostCh
        (fun p2 r2 => mre urlG3 p2 r2 (fun _ r3 => some ((c :: h') ++ '/' :: p, r2, r3)))
        (some c) (h' ++ '/' :: p)) none
    = some ((c :: h') ++ '/' :: p, '/' :: p, [])
  rw [hc, hrun]
  rfl

/-- Group extraction for a whole-input match after the `https://` scheme. -/
theorem urlFound_https (r1 r2 : List Char) :
    urlFound ('h' :: 't' :: 't' :: 'p' :: 's' :: ':' :: '/' :: '/' :: r1) r1 r2 []
      = ([], 'h' :: 't' :: 't' :: 'p' :: 's' :: ':' :: '/' :: '/' :: r1,
          "https://".data, r2, []) := by
  unfold urlFound
  simp only [List.length_nil, Nat.sub_zero, List.take_length]
  rw [show ('h' :: 't' :: 't' :: 'p' :: 's' :: ':' :: '/' :: '/' :: r1).length - r1.length = 8
    from by simp only [List.length_cons]; omega]
  rfl

/-- Group extraction for a whole-input match after the `http://` scheme. -/
theorem urlFound_http (r1 r2 : List Char) :
    urlFound ('h' :: 't' :: 't' :: 'p' :: ':' :: '/' :: '/' :: r1) r1 r2 []
      = ([], 'h' :: 't' :: 't' :: 'p' :: ':' :: '/' :: '/' :: r1, "http://".data, r2, []) := by
  unfold urlFound
  simp only [List.length_nil, Nat.sub_zero, List.take_length]
  rw [show ('h' :: 't' :: 't' :: 'p' :: ':' :: '/' :: '/' :: r1).length - r1.length = 7
    from by simp only [List.length_cons]; omega]
  rfl

/-- The URL pass is the identity on the empty input. -/
theorem urlReplaceAllAux_nilAll : ∀ (fuel : Nat) (prev : Option Char),
    urlReplaceAllAux fuel prev [] = [] := by
  intro fuel prev
  cases fuel with
  | zero => rfl
  | succ f =>
    have hnil : urlMatchAt prev []
        (fun r1 r2 r3 => some ((r1, r2, r3) : List Char × List Char × List Char)) = none := rfl
    rw [urlReplaceAllAux, urlFindFrom, hnil]

/-- The URL pass on `https://host/rest`: the host is replaced by
`[REDACTED]`, scheme and the whole `/rest` part are preserved. -/
theorem urlPass_https (h p : List Char) (hne : h ≠ [])
    (hh : ∀ c ∈ h, isHostCh c = true) (hp : ∀ c ∈ p, notSpaceCh c = true) :
    urlReplaceAllString ("https://".data ++ (h ++ '/' :: p))
      = "https://".data ++ (redactedChars ++ '/' :: p) := by
  have hmatch : urlMatchAt none
      ('h' :: 't' :: 't' :: 'p' :: 's' :: ':' :: '/' :: '/' :: (h ++ '/' :: p))
      (fun r1 r2 r3 => some (r1, r2, r3)) = some (h ++ '/' :: p, '/' :: p, []) := by
    refine altOr_eats ?_
    exact urlHostTail h p hne hh hp (some '/')
  have hfind : urlFindFrom none
      ('h' :: 't' :: 't' :: 'p' :: 's' :: ':' :: '/' :: '/' :: (h ++ '/' :: p))
      = some ([], 'h' :: 't' :: 't' :: 'p' :: 's' :: ':' :: '/' :: '/' :: (h ++ '/' :: p),
          "https://".data, '/' :: p, []) := by
    rw [urlFindFrom, hmatch]
    simp only [urlFound_https]
  show urlReplaceAllAux
      (('h' :: 't' :: 't' :: 'p' :: 's' :: ':' :: '/' :: '/' :: (h ++ '/' :: p)).length + 1)
      none ('h' :: 't' :: 't' :: 'p' :: 's' :: ':' :: '/' :: '/' :: (h ++ '/' :: p))
    = "https://".data ++ (redactedChars ++ '/' :: p)
  rw [urlReplaceAllAux, hfind]
  simp [urlReplaceAllAux_nilAll]

/-- The URL pass on `http://host/rest`. -/
theorem urlPass_http (h p : List Char) (hne : h ≠ [])
    (hh : ∀ c ∈ h, isHostCh c = true) (hp : ∀ c ∈ p, notSpaceCh c = true) :
    urlReplaceAllString ("http://".data ++ (h ++ '/' :: p))
      = "http://".data ++ (redactedChars ++ '/' :: p) := by
  have hmatch : urlMatchAt none
      ('h' :: 't' :: 't' :: 'p' :: ':' :: '/' :: '/' :: (h ++ '/' :: p))
      (fun r1 r2 r3 => some (r1, r2, r3)) = some (h ++ '/' :: p, '/' :: p, []) :=
    urlHostTail h p hne hh hp (some '/')
  have hfind : urlFindFrom none
      ('h' :: 't' :: 't' :: 'p' :: ':' :: '/' :: '/' :: (h ++ '/' :: p))
      = some ([], 'h' :: 't' :: 't' :: 'p' :: ':' :: '/' :: '/' :: (h ++ '/' :: p),
          "http://".data, '/' :: p, []) := by
    rw [urlFindFrom, hmatch]
    simp only [urlFound_http]
  show urlReplaceAllAux
      (('h' :: 't' :: 't' :: 'p' :: ':' :: '/' :: '/' :: (h ++ '/' :: p)).length + 1)
      none ('h' :: 't' :: 't' :: 'p' :: ':' :: '/' :: '/' :: (h ++ '/' :: p))
    = "http://".data ++ (redactedChars ++ '/' :: p)
  rw [urlReplaceAllAux, hfind]
  simp [urlReplaceAllAux_nilAll]

/-- C4 (amended): for every URL of the shape `scheme://host/rest` with
scheme http or https, `host` a non-empty run of `[\w.-]` characters and
`rest` free of whitespace, the final URL pass replaces exactly the host
with `[REDACTED]` and preserves the scheme and the entire `/rest` part;
on inputs the ten earlier passes leave unchanged — in particular the
claim's own example — `sanitizeContent` itself yields
`https://[REDACTED]/a/b` (and likewise for http).  A URL whose host run is
not followed by `/` falls outside this shape and everything after its first
host run survives verbatim: `https://https://x` becomes
`https://[REDACTED]://x`, the inner host unredacted. -/
theorem c4_host_redacted_scheme_path_preserved :
    (∀ (h p : List Char), h ≠ [] → (∀ c ∈ h, isHostCh c = true) →
      (∀ c ∈ p, notSpaceCh c = true) →
      urlReplaceAllString ("https://".data ++ (h ++ '/' :: p))
        = "https://".data ++ (redactedChars ++ '/' :: p)) ∧
    (∀ (h p : List Char), h ≠ [] → (∀ c ∈ h, isHostCh c = true) →
      (∀ c ∈ p, notSpaceCh c = true) →
      urlReplaceAllString ("http://".data ++ (h ++ '/' :: p))
        = "http://".data ++ (redactedChars ++ '/' :: p)) ∧
    sanitizeContent "https://host.example.com/a/b" = "https://[REDACTED]/a/b" ∧
    sanitizeContent "http://host.example.com/a/b" = "http://[REDACTED]/a/b" ∧
    sanitizeContent "https://https://x" = "https://[REDACTED]://x" :=
  ⟨urlPass_https, urlPass_http, by decide, by decide, by decide⟩

/-- Witness for C4's amended theorem at host "host.example.com" and rest
"a/b". -/
theorem c4_host_redacted_scheme_path_preserved_witness :
    ("host.example.com".data ≠ [] ∧ (∀ c ∈ "host.example.com".data, isHostCh c = true) ∧
      (∀ c ∈ "a/b".data, notSpaceCh c = true)) ∧
    urlReplaceAllString ("https://".data ++ ("host.example.com".data ++ '/' :: "a/b".data))
      = "https://".data ++ (redactedChars ++ '/' :: "a/b".data) :=
  ⟨⟨by decide, by decide, by decide⟩,
    c4_host_redacted_scheme_path_preserved.1 "host.example.com".data "a/b".data
      (by decide) (by decide) (by decide)⟩
